import Mathlib

/-!
Verification of the Focus concept (AI-augmented DayPlanner): a shallow
embedding of `focus.ts` — per-user current-task state, the LLM-response
extraction step, the content validators, and the suggestion-generation
orchestration — together with theorems settling the specification claims.
-/

namespace Focus

/-- Opening brace character (written via its code point). -/
def lbrace : Char := Char.ofNat 123

/-- Closing brace character (written via its code point). -/
def rbrace : Char := Char.ofNat 125

/-- `interface User` of focus.ts. -/
structure User where
  id : String
deriving DecidableEq

/-- `interface Task` of focus.ts. -/
structure Task where
  description : String
deriving DecidableEq

/-- `interface FirstStepSuggestion` of focus.ts. -/
structure FirstStepSuggestion where
  forTask : Task
  suggestionText : String
deriving DecidableEq

/-- The two per-user `Map`s held by `class Focus`, as functions from user id. -/
structure FocusState where
  currentTasks : String → Option Task
  suggestions : String → Option FirstStepSuggestion

/-- The state of a freshly constructed `Focus` object: both maps empty. -/
def initialState : FocusState :=
  { currentTasks := fun _ => none, suggestions := fun _ => none }

/-- `setCurrentTask`: stores the task under the user's id and deletes any
stored suggestion for that user. -/
def setCurrentTask (st : FocusState) (user : User) (task : Task) : FocusState :=
  { currentTasks := fun k => if k = user.id then some task else st.currentTasks k,
    suggestions := fun k => if k = user.id then none else st.suggestions k }

/-- `clearCurrentTask`: deletes both the current task and any suggestion. -/
def clearCurrentTask (st : FocusState) (user : User) : FocusState :=
  { currentTasks := fun k => if k = user.id then none else st.currentTasks k,
    suggestions := fun k => if k = user.id then none else st.suggestions k }

/-- `getCurrentTask`: reads the current-task map. -/
def getCurrentTask (st : FocusState) (user : User) : Option Task :=
  st.currentTasks user.id

/-- Reads the suggestion map for a user (as `displayFocus` does). -/
def getSuggestion (st : FocusState) (user : User) : Option FirstStepSuggestion :=
  st.suggestions user.id

/-- Every distinct `throw` site of focus.ts, one constructor each, carrying
the data interpolated into the thrown message. -/
inductive FocusError where
  | noCurrentTask (userId : String)
  | modelError (message : String)
  | noJsonFound
  | jsonParseError (span : String)
  | badSuggestionField
  | notActionable (text : String)
  | tooLargeScope (text : String)
  | notSingleSentence (text : String)
deriving DecidableEq

/-- JavaScript `String.prototype.trim` on a character list: whitespace
removed from both ends. -/
def listTrim (l : List Char) : List Char :=
  ((l.dropWhile Char.isWhitespace).reverse.dropWhile Char.isWhitespace).reverse

/-- The `ACTION_VERBS` table of `validateIsActionable`, verbatim. -/
def ACTION_VERBS : List String :=
  ["write", "create", "draft", "outline", "list", "sketch", "draw", "jot", "type",
   "find", "search", "look up", "read", "review", "identify", "gather", "watch",
   "open", "set up", "organize", "schedule", "book", "add", "download", "install",
   "email", "message", "call", "ask", "send",
   "take out", "move", "put", "go to", "get",
   "run", "test", "debug", "check"]

/-- `text.trim().split(' ')[0].toLowerCase()`: the leading run of non-space
characters of the trimmed text, lower-cased. -/
def firstWord (text : String) : List Char :=
  ((listTrim text.toList).takeWhile (fun c => c ≠ ' ')).map Char.toLower

/-- The pass condition of `validateIsActionable`: some action verb is a
prefix of the first word. -/
def isActionable (text : String) : Bool :=
  ACTION_VERBS.any (fun verb => verb.toList.isPrefixOf (firstWord text))

/-- `validateIsActionable`: returns the thrown error, or `none` on pass. -/
def validateIsActionable (text : String) : Option FocusError :=
  if isActionable text then none else some (FocusError.notActionable text)

/-- The `RED_FLAG_PHRASES` table of `validateIsShort`, verbatim. -/
def RED_FLAG_PHRASES : List String :=
  ["complete the", "finish the", "finalize the", "implement the", "build the",
   "design the", "write the entire", "write the full", "create the whole",
   "the entire module", "the whole chapter", "the full draft", "the first draft",
   "the final version", "the complete list",
   "all of the", "every part of", "the rest of the", "organize all",
   "clean the entire"]

/-- JavaScript `String.prototype.includes` on character lists: the needle
occurs as a contiguous infix of the haystack. -/
def listContains (needle : List Char) : List Char → Bool
  | [] => needle.isEmpty
  | c :: rest => needle.isPrefixOf (c :: rest) || listContains needle rest

/-- `text.toLowerCase()` on the character list. -/
def lowerList (text : String) : List Char :=
  text.toList.map Char.toLower

/-- The fail condition of `validateIsShort`: some red-flag phrase occurs in
the lower-cased text. -/
def hasRedFlag (text : String) : Bool :=
  RED_FLAG_PHRASES.any (fun phrase => listContains phrase.toList (lowerList text))

/-- `validateIsShort`: returns the thrown error, or `none` on pass. -/
def validateIsShort (text : String) : Option FocusError :=
  if hasRedFlag text then some (FocusError.tooLargeScope text) else none

/-- JavaScript `String.prototype.indexOf` generalized to a predicate: the
index of the first character satisfying it. -/
def jsIndexOf (p : Char → Bool) : List Char → Option Nat
  | [] => none
  | c :: rest => if p c then some 0 else (jsIndexOf p rest).map (fun i => i + 1)

/-- `Math.min` over a list of indices (`none` when the list is empty, as in
the `indices.length === 0` early return). -/
def minIndex (l : List Nat) : Option Nat :=
  match l with
  | [] => none
  | x :: xs => some (xs.foldl Nat.min x)

/-- The index of the first sentence-terminating character, computed as the
code does: `indexOf` for each of `.`, `?`, `!`, discard the misses, take the
minimum. -/
def firstTerminatorIdx (text : String) : Option Nat :=
  let l := text.toList
  minIndex (([jsIndexOf (fun c => c = '.') l,
              jsIndexOf (fun c => c = '?') l,
              jsIndexOf (fun c => c = '!') l]).filterMap id)

/-- `validateIsSingleSentence`: passes when no terminator exists, or when
only whitespace follows the first terminator. -/
def validateIsSingleSentence (text : String) : Option FocusError :=
  match firstTerminatorIdx text with
  | none => none
  | some i =>
      if listTrim (text.toList.drop (i + 1)) = [] then none
      else some (FocusError.notSingleSentence text)

/-- The validator calls of `parseAndStoreSuggestion`, in source order; the
first thrown error aborts the rest. -/
def runValidators (text : String) : Option FocusError :=
  match validateIsActionable text with
  | some e => some e
  | none =>
      match validateIsShort text with
      | some e => some e
      | none => validateIsSingleSentence text

/-- JSON values, as produced by `JSON.parse` (numbers kept as their raw
source text, which the program never inspects). -/
inductive Json where
  | null
  | bool (b : Bool)
  | num (raw : String)
  | str (s : String)
  | arr (elems : List Json)
  | obj (fields : List (String × Json))

/-- JSON insignificant whitespace. -/
def jsonWs (c : Char) : Bool :=
  c = ' ' || c = '\t' || c = '\n' || c = '\r'

/-- Drops leading JSON whitespace. -/
def skipWs (l : List Char) : List Char :=
  l.dropWhile jsonWs

/-- Value of a hexadecimal digit. -/
def hexVal (c : Char) : Option Nat :=
  if '0' ≤ c ∧ c ≤ '9' then some (c.toNat - 48)
  else if 'a' ≤ c ∧ c ≤ 'f' then some (c.toNat - 87)
  else if 'A' ≤ c ∧ c ≤ 'F' then some (c.toNat - 55)
  else none

/-- Parses the body of a JSON string (after the opening quote), decoding
escapes; returns the decoded characters and the input after the closing
quote. -/
def parseJStr (fuel : Nat) (l : List Char) : Option (List Char × List Char) :=
  match fuel with
  | 0 => none
  | fuel + 1 =>
      match l with
      | [] => none
      | c :: rest =>
          if c = '\"' then some ([], rest)
          else if c = '\\' then
            match rest with
            | [] => none
            | e :: rest2 =>
                if e = '\"' ∨ e = '\\' ∨ e = '/' then
                  (parseJStr fuel rest2).map (fun p => (e :: p.1, p.2))
                else if e = 'b' then
                  (parseJStr fuel rest2).map (fun p => (Char.ofNat 8 :: p.1, p.2))
                else if e = 'f' then
                  (parseJStr fuel rest2).map (fun p => (Char.ofNat 12 :: p.1, p.2))
                else if e = 'n' then
                  (parseJStr fuel rest2).map (fun p => ('\n' :: p.1, p.2))
                else if e = 'r' then
                  (parseJStr fuel rest2).map (fun p => (Char.ofNat 13 :: p.1, p.2))
                else if e = 't' then
                  (parseJStr fuel rest2).map (fun p => ('\t' :: p.1, p.2))
                else if e = 'u' then
                  match rest2 with
                  | h1 :: h2 :: h3 :: h4 :: rest3 =>
                      match hexVal h1, hexVal h2, hexVal h3, hexVal h4 with
                      | some a, some b, some c2, some d =>
                          (parseJStr fuel rest3).map
                            (fun p => (Char.ofNat (a * 4096 + b * 256 + c2 * 16 + d) :: p.1, p.2))
                      | _, _, _, _ => none
                  | _ => none
                else none
          else if c.toNat < 32 then none
          else (parseJStr fuel rest).map (fun p => (c :: p.1, p.2))

/-- One or more decimal digits. -/
def digits1 (l : List Char) : Option (List Char × List Char) :=
  let d := l.takeWhile Char.isDigit
  if d.isEmpty then none else some (d, l.drop d.length)

/-- Parses a JSON number (grammar of ECMA-404); returns its raw text and
the remaining input. -/
def parseNumber (l : List Char) : Option (List Char × List Char) :=
  let sgnSplit : List Char × List Char :=
    match l with
    | c :: r => if c = '-' then ([c], r) else ([], l)
    | [] => ([], [])
  let sgn := sgnSplit.1
  let l1 := sgnSplit.2
  match l1 with
  | [] => none
  | c :: r =>
      if ¬ c.isDigit then none
      else
        let ipSplit : List Char × List Char :=
          if c = '0' then ([c], r) else (l1.takeWhile Char.isDigit, l1.dropWhile Char.isDigit)
        let ip := ipSplit.1
        let l2 := ipSplit.2
        let fracRes : Option (List Char × List Char) :=
          match l2 with
          | d :: r2 => if d = '.' then (digits1 r2).map (fun p => (d :: p.1, p.2)) else some ([], l2)
          | [] => some ([], [])
        match fracRes with
        | none => none
        | some (fp, l3) =>
            let expRes : Option (List Char × List Char) :=
              match l3 with
              | e :: r3 =>
                  if e = 'e' ∨ e = 'E' then
                    match r3 with
                    | s :: r4 =>
                        if s = '+' ∨ s = '-' then
                          (digits1 r4).map (fun p => (e :: s :: p.1, p.2))
                        else (digits1 r3).map (fun p => (e :: p.1, p.2))
                    | [] => none
                  else some ([], l3)
              | [] => some ([], [])
            match expRes with
            | none => none
            | some (ep, l4) => some (sgn ++ ip ++ fp ++ ep, l4)

mutual

/-- Parses one JSON value from the input (leading whitespace allowed). -/
def parseValue (fuel : Nat) (l : List Char) : Option (Json × List Char) :=
  match fuel with
  | 0 => none
  | fuel + 1 =>
      match skipWs l with
      | [] => none
      | c :: rest =>
          if c = lbrace then
            match skipWs rest with
            | d :: r2 =>
                if d = rbrace then some (Json.obj [], r2)
                else parseMembers fuel (d :: r2) []
            | [] => none
          else if c = '[' then
            match skipWs rest with
            | d :: r2 =>
                if d = ']' then some (Json.arr [], r2)
                else parseElems fuel (d :: r2) []
            | [] => none
          else if c = '\"' then
            (parseJStr (rest.length + 1) rest).map (fun p => (Json.str (String.mk p.1), p.2))
          else
            match c :: rest with
            | 't' :: 'r' :: 'u' :: 'e' :: r => some (Json.bool true, r)
            | 'f' :: 'a' :: 'l' :: 's' :: 'e' :: r => some (Json.bool false, r)
            | 'n' :: 'u' :: 'l' :: 'l' :: r => some (Json.null, r)
            | l2 => (parseNumber l2).map (fun p => (Json.num (String.mk p.1), p.2))

/-- Parses the members of a JSON object (positioned at the first key). -/
def parseMembers (fuel : Nat) (l : List Char) (acc : List (String × Json)) :
    Option (Json × List Char) :=
  match fuel with
  | 0 => none
  | fuel + 1 =>
      match skipWs l with
      | c :: rest =>
          if c = '\"' then
            match parseJStr (rest.length + 1) rest with
            | none => none
            | some (key, r1) =>
                match skipWs r1 with
                | ':' :: r2 =>
                    match parseValue fuel r2 with
                    | none => none
                    | some (v, r3) =>
                        match skipWs r3 with
                        | ',' :: r4 => parseMembers fuel r4 (acc ++ [(String.mk key, v)])
                        | d :: r4 =>
                            if d = rbrace then
                              some (Json.obj (acc ++ [(String.mk key, v)]), r4)
                            else none
                        | [] => none
                | _ => none
          else none
      | [] => none

/-- Parses the elements of a JSON array (positioned at the first element). -/
def parseElems (fuel : Nat) (l : List Char) (acc : List Json) :
    Option (Json × List Char) :=
  match fuel with
  | 0 => none
  | fuel + 1 =>
      match parseValue fuel l with
      | none => none
      | some (v, r) =>
          match skipWs r with
          | ',' :: r2 => parseElems fuel r2 (acc ++ [v])
          | ']' :: r2 => some (Json.arr (acc ++ [v]), r2)
          | _ => none

end

/-- `JSON.parse`: one JSON value, with only whitespace around it. -/
def parseJson (s : String) : Option Json :=
  match parseValue (2 * s.length + 8) s.toList with
  | some (v, rest) => if (skipWs rest).isEmpty then some v else none
  | none => none

/-- The span matched by the regular expression `/\x7b[\s\S]*\x7d/`: from
the first opening brace through the last closing brace, provided the
closing brace comes later. -/
def extractJsonSpan (s : String) : Option String :=
  let cs := s.toList
  match jsIndexOf (fun c => c = lbrace) cs with
  | none => none
  | some i =>
      match jsIndexOf (fun c => c = rbrace) cs.reverse with
      | none => none
      | some rj =>
          let j := cs.length - 1 - rj
          if i < j then some (String.mk ((cs.drop i).take (j - i + 1))) else none

/-- Property access `response.suggestion` on a parsed JSON value followed by
the `typeof ... === 'string'` check: the string value of the `suggestion`
field (last occurrence wins, as in JavaScript object construction). -/
def lookupField : List (String × Json) → String → Option Json
  | [], _ => none
  | (k, v) :: rest, key =>
      match lookupField rest key with
      | some r => some r
      | none => if k = key then some v else none

/-- The `suggestion` field of a parsed response when it is a string. -/
def getSuggestionField (j : Json) : Option String :=
  match j with
  | Json.obj fields =>
      match lookupField fields "suggestion" with
      | some (Json.str s) => some s
      | _ => none
  | _ => none

instance {ε α : Type} [DecidableEq ε] [DecidableEq α] : DecidableEq (Except ε α) :=
  fun x y =>
    match x, y with
    | Except.ok a, Except.ok b => decidable_of_iff (a = b) (by simp)
    | Except.error a, Except.error b => decidable_of_iff (a = b) (by simp)
    | Except.ok _, Except.error _ => isFalse (fun h => Except.noConfusion h)
    | Except.error _, Except.ok _ => isFalse (fun h => Except.noConfusion h)

/-- Lines 102-113 of focus.ts: regex span, `JSON.parse`, field check; the
candidate string on success, the thrown error otherwise. -/
def extractSuggestion (raw : String) : Except FocusError String :=
  match extractJsonSpan raw with
  | none => Except.error FocusError.noJsonFound
  | some span =>
      match parseJson span with
      | none => Except.error (FocusError.jsonParseError span)
      | some j =>
          match getSuggestionField j with
          | some s => Except.ok s
          | none => Except.error FocusError.badSuggestionField

/-- `parseAndStoreSuggestion`: extraction, the three validators in order,
then—only when everything passed—the store into the suggestions map. The
thrown error (if any) is returned beside the resulting state. -/
def parseAndStoreSuggestion (st : FocusState) (responseText : String) (user : User)
    (forTask : Task) : FocusState × Option FocusError :=
  match extractSuggestion responseText with
  | Except.error e => (st, some e)
  | Except.ok suggestionText =>
      match runValidators suggestionText with
      | some e => (st, some e)
      | none =>
          ({ currentTasks := st.currentTasks,
             suggestions := fun k =>
               if k = user.id then some ⟨forTask, suggestionText⟩ else st.suggestions k },
           none)

/-- `generateFirstStep`: requires a current task, then runs the model call
(whose outcome—response text or invocation failure—is the `llmResult`
argument) and the parse/validate/store pipeline. -/
def generateFirstStep (st : FocusState) (user : User)
    (llmResult : Except String String) : FocusState × Option FocusError :=
  match st.currentTasks user.id with
  | none => (st, some (FocusError.noCurrentTask user.id))
  | some currentTask =>
      match llmResult with
      | Except.error msg => (st, some (FocusError.modelError msg))
      | Except.ok text => parseAndStoreSuggestion st text user currentTask

/-- The states reachable from a fresh `Focus` object by any sequence of the
public operations (with arbitrary model outcomes). -/
inductive Reachable : FocusState → Prop where
  | init : Reachable initialState
  | set : ∀ (st : FocusState) (user : User) (task : Task),
      Reachable st → Reachable (setCurrentTask st user task)
  | clear : ∀ (st : FocusState) (user : User),
      Reachable st → Reachable (clearCurrentTask st user)
  | gen : ∀ (st : FocusState) (user : User) (r : Except String String),
      Reachable st → Reachable (generateFirstStep st user r).1

/-! Shared helper lemmas. -/

/-- Case analysis of a `generateFirstStep` call: either an error is thrown
and the pair carries the unchanged entry state, or the whole pipeline
succeeded and exactly one suggestion entry (validated, for the current
task) was written. -/
theorem generateFirstStep_cases (st : FocusState) (u : User) (r : Except String String) :
    (∃ e, generateFirstStep st u r = (st, some e)) ∨
    (∃ t text, st.currentTasks u.id = some t ∧ runValidators text = none ∧
      generateFirstStep st u r =
        ({ currentTasks := st.currentTasks,
           suggestions := fun k =>
             if k = u.id then some ⟨t, text⟩ else st.suggestions k }, none)) := by
  rcases h1 : st.currentTasks u.id with _ | t
  · exact Or.inl ⟨FocusError.noCurrentTask u.id, by simp [generateFirstStep, h1]⟩
  · rcases r with msg | text
    · exact Or.inl ⟨FocusError.modelError msg, by simp [generateFirstStep, h1]⟩
    · rcases h2 : extractSuggestion text with e | sug
      · exact Or.inl ⟨e, by simp [generateFirstStep, parseAndStoreSuggestion, h1, h2]⟩
      · rcases h3 : runValidators sug with _ | e
        · exact Or.inr ⟨t, sug, rfl, h3,
            by simp [generateFirstStep, parseAndStoreSuggestion, h1, h2, h3]⟩
        · exact Or.inl ⟨e, by simp [generateFirstStep, parseAndStoreSuggestion, h1, h2, h3]⟩

/-- When the chained validators all pass, each individual validator passes. -/
theorem runValidators_eq_none (text : String) (h : runValidators text = none) :
    validateIsActionable text = none ∧ validateIsShort text = none ∧
      validateIsSingleSentence text = none := by
  unfold runValidators at h
  rcases h1 : validateIsActionable text with _ | e
  · rw [h1] at h
    rcases h2 : validateIsShort text with _ | e
    · rw [h2] at h
      exact ⟨rfl, rfl, h⟩
    · rw [h2] at h
      exact absurd h (by simp)
  · rw [h1] at h
    exact absurd h (by simp)

/-! Concrete fixtures used by witnesses and counterexamples. -/

/-- The mock user of focus-tests.ts. -/
def user1 : User := ⟨"user123"⟩

/-- The vague task of focus-tests.ts. -/
def taskA : Task := ⟨"Get organized for the week"⟩

/-- A second task, distinct from `taskA`. -/
def taskB : Task := ⟨"Write initial draft of essay"⟩

/-- A well-formed model response whose candidate passes every validator. -/
def goodResp : String := "\x7b\"suggestion\": \"Open the file.\"\x7d"

/-- State after `setCurrentTask(user1, taskA)` on a fresh object. -/
def stA : FocusState := setCurrentTask initialState user1 taskA

/-- State after a successful `generateFirstStep` run from `stA`. -/
def stG : FocusState := (generateFirstStep stA user1 (Except.ok goodResp)).1

/-- C10: for every user u and every task T, executing setCurrentTask(u, T)
and then getCurrentTask(u) returns T. -/
theorem setCurrentTask_getCurrentTask (st : FocusState) (u : User) (t : Task) :
    getCurrentTask (setCurrentTask st u t) u = some t := by
  simp [getCurrentTask, setCurrentTask]

/-- C3: for every user and every failing run of generateFirstStep — be the
failure a precondition violation, a model-invocation error, an extraction
error, or a validation error — the state after the call (both maps, hence
the user's suggestion and current task) is exactly the state before it. -/
theorem generateFirstStep_failure_keeps_state (st : FocusState) (u : User)
    (r : Except String String) (e : FocusError)
    (h : (generateFirstStep st u r).2 = some e) :
    (generateFirstStep st u r).1 = st := by
  rcases generateFirstStep_cases st u r with ⟨e2, heq⟩ | ⟨t, text, _, _, heq⟩
  · rw [heq]
  · rw [heq] at h
    exact absurd h (by simp)

/-- Witness for C3: on a fresh object (no current task) the call fails and
the resulting state is the entry state. -/
theorem generateFirstStep_failure_keeps_state_witness :
    (generateFirstStep initialState user1 (Except.ok goodResp)).1 = initialState :=
  generateFirstStep_failure_keeps_state initialState user1 (Except.ok goodResp)
    (FocusError.noCurrentTask "user123") (by decide)

/-- C4: setCurrentTask or clearCurrentTask on a user holding a suggestion
leaves no suggestion retrievable for that user, and in every reachable
state a stored suggestion's task is still the user's current task. -/
theorem suggestion_never_outlives_task :
    (∀ (st : FocusState) (u : User) (t2 : Task) (s : FirstStepSuggestion),
        getSuggestion st u = some s →
        getSuggestion (setCurrentTask st u t2) u = none ∧
        getSuggestion (clearCurrentTask st u) u = none) ∧
    (∀ (st : FocusState), Reachable st → ∀ (u : User) (s : FirstStepSuggestion),
        getSuggestion st u = some s → getCurrentTask st u = some s.forTask) := by
  constructor
  · intro st u t2 s _
    constructor
    · simp [getSuggestion, setCurrentTask]
    · simp [getSuggestion, clearCurrentTask]
  · intro st hreach
    induction hreach with
    | init =>
        intro u s h
        simp [getSuggestion, initialState] at h
    | set st0 u0 t0 _ ih =>
        intro u s h
        simp only [getSuggestion, setCurrentTask] at h
        by_cases hc : u.id = u0.id
        · simp [hc] at h
        · simp only [hc, if_false] at h
          simpa [getCurrentTask, setCurrentTask, hc] using ih u s h
    | clear st0 u0 _ ih =>
        intro u s h
        simp only [getSuggestion, clearCurrentTask] at h
        by_cases hc : u.id = u0.id
        · simp [hc] at h
        · simp only [hc, if_false] at h
          simpa [getCurrentTask, clearCurrentTask, hc] using ih u s h
    | gen st0 u0 r _ ih =>
        intro u s h
        rcases generateFirstStep_cases st0 u0 r with ⟨e, heq⟩ | ⟨t, text, hcur, _, heq⟩
        · rw [heq] at h ⊢
          exact ih u s h
        · rw [heq] at h ⊢
          simp only [getSuggestion] at h
          by_cases hc : u.id = u0.id
          · simp only [hc, if_pos rfl] at h
            cases h
            simpa [getCurrentTask, hc] using hcur
          · simp only [hc, if_false] at h
            simpa [getCurrentTask, hc] using ih u s h

/-- Witness for C4: a concrete reachable state holding a suggestion; the
task change and the clear drop it, and its task is the current one. -/
theorem suggestion_never_outlives_task_witness :
    getSuggestion (setCurrentTask stG user1 taskB) user1 = none ∧
    getSuggestion (clearCurrentTask stG user1) user1 = none ∧
    getCurrentTask stG user1 = some taskA := by
  have hs : getSuggestion stG user1 = some ⟨taskA, "Open the file."⟩ := by decide
  have hreach : Reachable stG :=
    Reachable.gen stA user1 (Except.ok goodResp)
      (Reachable.set initialState user1 taskA Reachable.init)
  refine ⟨(suggestion_never_outlives_task.1 stG user1 taskB _ hs).1,
          (suggestion_never_outlives_task.1 stG user1 taskB _ hs).2,
          suggestion_never_outlives_task.2 stG hreach user1 _ hs⟩

/-- C5: in every reachable state, every stored suggestion text passes the
actionable, bounded-scope and single-sentence validators; there is no
stored-but-unvalidated suggestion. -/
theorem stored_suggestions_validated :
    ∀ (st : FocusState), Reachable st → ∀ (uid : String) (s : FirstStepSuggestion),
      st.suggestions uid = some s →
      validateIsActionable s.suggestionText = none ∧
      validateIsShort s.suggestionText = none ∧
      validateIsSingleSentence s.suggestionText = none := by
  intro st hreach
  induction hreach with
  | init =>
      intro uid s h
      simp [initialState] at h
  | set st0 u0 t0 _ ih =>
      intro uid s h
      simp only [setCurrentTask] at h
      by_cases hc : uid = u0.id
      · simp [hc] at h
      · simp only [hc, if_false] at h
        exact ih uid s h
  | clear st0 u0 _ ih =>
      intro uid s h
      simp only [clearCurrentTask] at h
      by_cases hc : uid = u0.id
      · simp [hc] at h
      · simp only [hc, if_false] at h
        exact ih uid s h
  | gen st0 u0 r _ ih =>
      intro uid s h
      rcases generateFirstStep_cases st0 u0 r with ⟨e, heq⟩ | ⟨t, text, _, hval, heq⟩
      · rw [heq] at h
        exact ih uid s h
      · rw [heq] at h
        simp only at h
        by_cases hc : uid = u0.id
        · simp only [hc, if_pos rfl] at h
          cases h
          exact runValidators_eq_none text hval
        · simp only [hc, if_false] at h
          exact ih uid s h

/-- Witness for C5: the suggestion stored in the concrete reachable state
`stG` passes all three validators. -/
theorem stored_suggestions_validated_witness :
    validateIsActionable "Open the file." = none ∧
    validateIsShort "Open the file." = none ∧
    validateIsSingleSentence "Open the file." = none :=
  stored_suggestions_validated stG
    (Reachable.gen stA user1 (Except.ok goodResp)
      (Reachable.set initialState user1 taskA Reachable.init))
    "user123" ⟨taskA, "Open the file."⟩ (by decide)

/-! Validator-shape lemmas. -/

/-- The actionability validator only ever throws its own error. -/
theorem validateIsActionable_eq_some (text : String) (e : FocusError)
    (h : validateIsActionable text = some e) : e = FocusError.notActionable text := by
  unfold validateIsActionable at h
  split at h
  · exact absurd h (by simp)
  · injection h with h
    exact h.symm

/-- The scope validator only ever throws its own error. -/
theorem validateIsShort_eq_some (text : String) (e : FocusError)
    (h : validateIsShort text = some e) : e = FocusError.tooLargeScope text := by
  unfold validateIsShort at h
  split at h
  · injection h with h
    exact h.symm
  · exact absurd h (by simp)

/-- The single-sentence validator only ever throws its own error. -/
theorem validateIsSingleSentence_eq_some (text : String) (e : FocusError)
    (h : validateIsSingleSentence text = some e) : e = FocusError.notSingleSentence text := by
  unfold validateIsSingleSentence at h
  split at h
  · exact absurd h (by simp)
  · split at h
    · exact absurd h (by simp)
    · injection h with h
      exact h.symm

/-- The chained validators throw only validation errors. -/
theorem runValidators_error_shape (text : String) (e : FocusError)
    (h : runValidators text = some e) :
    e = FocusError.notActionable text ∨ e = FocusError.tooLargeScope text ∨
      e = FocusError.notSingleSentence text := by
  unfold runValidators at h
  rcases h1 : validateIsActionable text with _ | e1 <;> rw [h1] at h
  · rcases h2 : validateIsShort text with _ | e2 <;> rw [h2] at h
    · exact Or.inr (Or.inr (validateIsSingleSentence_eq_some text e h))
    · injection h with h
      subst h
      exact Or.inr (Or.inl (validateIsShort_eq_some text e2 h2))
  · injection h with h
    subst h
    exact Or.inl (validateIsActionable_eq_some text e1 h1)

/-- Extraction throws only the three extraction errors. -/
theorem extractSuggestion_error_shape (raw : String) (e : FocusError)
    (h : extractSuggestion raw = Except.error e) :
    e = FocusError.noJsonFound ∨ (∃ s, e = FocusError.jsonParseError s) ∨
      e = FocusError.badSuggestionField := by
  unfold extractSuggestion at h
  split at h
  · injection h with h
    exact Or.inl h.symm
  · split at h
    · injection h with h
      exact Or.inr (Or.inl ⟨_, h.symm⟩)
    · split at h
      · exact absurd h (by simp)
      · injection h with h
        exact Or.inr (Or.inr h.symm)

/-- The parse/validate/store stage never throws the precondition error. -/
theorem parseAndStore_no_precondError (st : FocusState) (text : String) (u : User)
    (ft : Task) (uid : String) :
    (parseAndStoreSuggestion st text u ft).2 ≠ some (FocusError.noCurrentTask uid) := by
  intro hcontra
  unfold parseAndStoreSuggestion at hcontra
  split at hcontra
  · rename_i e heq
    simp only [Option.some.injEq] at hcontra
    rcases extractSuggestion_error_shape text e heq with h | ⟨s, h⟩ | h <;>
      subst h <;> exact FocusError.noConfusion hcontra
  · rename_i sug heq
    split at hcontra
    · rename_i e heq2
      simp only [Option.some.injEq] at hcontra
      rcases runValidators_error_shape sug e heq2 with h | h | h <;>
        subst h <;> exact FocusError.noConfusion hcontra
    · exact absurd hcontra (by simp)

/-! Claim C1 (corrected): focus.ts has no Non-empty validator. -/

/-- Modelled from the spec: the "Non-empty" validator the specification
places first in the pipeline ("fails if the trimmed candidate has zero
length"); no such validator exists in focus.ts. Returns `true` exactly when
that validator would fail. -/
def nonEmptyValidatorFails (text : String) : Bool :=
  (listTrim text.toList).isEmpty

/-- C1 counterexample: on the all-whitespace candidate the claimed pipeline
fails its Non-empty validator, but the code's pipeline reports the failure
as the Actionable predicate's error — no Non-empty validator ran or exists. -/
theorem pipeline_no_nonEmpty_counterexample :
    nonEmptyValidatorFails "   " = true ∧
    runValidators "   " = some (FocusError.notActionable "   ") := by
  constructor
  · decide
  · decide

/-- An all-whitespace candidate fails the actionability validator: its
first word is empty and no verb is a prefix of the empty word. -/
theorem trimEmpty_notActionable (text : String) (h : listTrim text.toList = []) :
    validateIsActionable text = some (FocusError.notActionable text) := by
  have hfw : firstWord text = [] := by
    unfold firstWord
    rw [h]
    rfl
  have hact : isActionable text = false := by
    unfold isActionable
    simp only [hfw]
    decide
  simp [validateIsActionable, hact]

/-- C1 amended: the pipeline applies the validators in the fixed order
Actionable, Bounded scope, Single sentence; the first failing validator
aborts it with the error naming that predicate and carrying the candidate
text; a candidate whose trimmed text has zero length fails the Actionable
validator (there is no separate Non-empty validator). -/
theorem validators_fixed_order :
    (∀ text e, validateIsActionable text = some e → runValidators text = some e) ∧
    (∀ text e, validateIsActionable text = none → validateIsShort text = some e →
      runValidators text = some e) ∧
    (∀ text, validateIsActionable text = none → validateIsShort text = none →
      runValidators text = validateIsSingleSentence text) ∧
    (∀ text, listTrim text.toList = [] →
      runValidators text = some (FocusError.notActionable text)) := by
  have horder1 : ∀ text e, validateIsActionable text = some e → runValidators text = some e := by
    intro text e h
    unfold runValidators
    rw [h]
  refine ⟨horder1, ?_, ?_, ?_⟩
  · intro text e h1 h2
    unfold runValidators
    rw [h1, h2]
  · intro text h1 h2
    unfold runValidators
    rw [h1, h2]
  · intro text h
    exact horder1 text _ (trimEmpty_notActionable text h)

/-- Witness for the amended C1: each stage aborts the pipeline on concrete
inputs, including the trimmed-empty candidate. -/
theorem validators_fixed_order_witness :
    runValidators "   " = some (FocusError.notActionable "   ") ∧
    runValidators "Write the entire chapter." =
      some (FocusError.tooLargeScope "Write the entire chapter.") ∧
    runValidators "Open a document. Then write a title." =
      some (FocusError.notSingleSentence "Open a document. Then write a title.") := by
  refine ⟨validators_fixed_order.2.2.2 "   " (by decide),
          validators_fixed_order.2.1 "Write the entire chapter." _ (by decide) (by decide),
          ?_⟩
  rw [validators_fixed_order.2.2.1 "Open a document. Then write a title."
        (by decide) (by decide)]
  decide

/-! Claim C2 (corrected): generateFirstStep takes no task argument. -/

/-- Modelled from the spec: the claimed precondition of
`generateFirstStep(user, task)` — current task set and structurally equal
to the supplied `task` argument — returning the claimed error kind on
violation. The source's `generateFirstStep(user, llm)` accepts no task
argument at all. -/
def generateFirstStepPreconditionSpec (st : FocusState) (u : User) (task : Task) :
    Option String :=
  match st.currentTasks u.id with
  | none => some "no current task"
  | some t => if t.description = task.description then none else some "task mismatch"

/-- C2 counterexample: with the current task set to `taskA` and a supplied
task argument `taskB`, the claimed precondition demands a "task mismatch"
failure, but the code's call (which has no task parameter to compare)
succeeds outright. -/
theorem generateFirstStep_taskArg_counterexample :
    generateFirstStepPreconditionSpec stA user1 taskB = some "task mismatch" ∧
    (generateFirstStep stA user1 (Except.ok goodResp)).2 = none := by
  constructor
  · decide
  · decide

/-- C2 amended: generateFirstStep requires only that the user's current
task is set; when it is not, the call fails with the single
no-current-task error (naming the user) and that error arises in no other
situation. No task argument exists and no task-mismatch case is
distinguished. -/
theorem generateFirstStep_precondition :
    ∀ (st : FocusState) (u : User) (r : Except String String),
      (getCurrentTask st u = none →
        generateFirstStep st u r = (st, some (FocusError.noCurrentTask u.id))) ∧
      (∀ t, getCurrentTask st u = some t →
        (generateFirstStep st u r).2 ≠ some (FocusError.noCurrentTask u.id)) := by
  intro st u r
  constructor
  · intro h
    unfold generateFirstStep
    rw [show st.currentTasks u.id = none from h]
  · intro t h
    unfold generateFirstStep
    rw [show st.currentTasks u.id = some t from h]
    rcases r with msg | text
    · simp
    · exact parseAndStore_no_precondError st text u t u.id

/-- Witness for the amended C2: a fresh object yields the no-current-task
error; once the task is set, that error cannot occur. -/
theorem generateFirstStep_precondition_witness :
    generateFirstStep initialState user1 (Except.ok goodResp) =
      (initialState, some (FocusError.noCurrentTask "user123")) ∧
    (generateFirstStep stA user1 (Except.ok goodResp)).2 ≠
      some (FocusError.noCurrentTask "user123") :=
  ⟨(generateFirstStep_precondition initialState user1 (Except.ok goodResp)).1 rfl,
   (generateFirstStep_precondition stA user1 (Except.ok goodResp)).2 taskA (by decide)⟩

/-! Claim C6: response extraction. -/

/-- The already-clean response of the spec's idempotence example. -/
def jsonCleanExample : String := "\x7b\"suggestion\": \"Open the file.\"\x7d"

/-- The fenced-and-prefixed response of the spec's tolerance example. -/
def jsonFencedExample : String :=
  "Sure!\n```json\n\x7b\"suggestion\": \"Write one sentence.\"\x7d\n```"

/-- C6: extraction takes the first-brace-to-last-brace span, parses it as
JSON and yields the string field `suggestion`; it fails exactly when no
span exists, the span is not valid JSON, or the `suggestion` string field
is missing; it is idempotent on clean JSON and tolerates surrounding
prose and markdown fences. -/
theorem extraction_correct :
    (∀ raw, (∃ e, extractSuggestion raw = Except.error e) ↔
      (extractJsonSpan raw = none ∨
       (∃ span, extractJsonSpan raw = some span ∧ parseJson span = none) ∨
       (∃ span j, extractJsonSpan raw = some span ∧ parseJson span = some j ∧
          getSuggestionField j = none))) ∧
    extractSuggestion jsonCleanExample = Except.ok "Open the file." ∧
    extractJsonSpan jsonFencedExample =
      some "\x7b\"suggestion\": \"Write one sentence.\"\x7d" ∧
    extractSuggestion jsonFencedExample = Except.ok "Write one sentence." ∧
    extractSuggestion "no braces here" = Except.error FocusError.noJsonFound ∧
    extractSuggestion "\x7bnot json\x7d" =
      Except.error (FocusError.jsonParseError "\x7bnot json\x7d") ∧
    extractSuggestion "\x7b\"other\": 1\x7d" = Except.error FocusError.badSuggestionField := by
  refine ⟨?_, by decide, by decide, by decide, by decide, by decide, by decide⟩
  intro raw
  unfold extractSuggestion
  rcases h1 : extractJsonSpan raw with _ | span
  · simp
  · rcases h2 : parseJson span with _ | j
    · simp [h2]
    · rcases h3 : getSuggestionField j with _ | s
      · simp [h2, h3]
      · simp [h2, h3]

/-! Claim C7: the actionability validator. -/

/-- C7: the Actionable validator passes exactly when some entry of the
fixed verb table is a (case-insensitive) prefix of the first
space-delimited token; the table contains the quoted multi-word and
single-word entries; the spec's three examples behave as claimed. -/
theorem actionable_validator_correct :
    (∀ text, validateIsActionable text = none ↔
      ∃ v ∈ ACTION_VERBS, v.toList.isPrefixOf (firstWord text) = true) ∧
    "look up" ∈ ACTION_VERBS ∧ "set up" ∈ ACTION_VERBS ∧
    "take out" ∈ ACTION_VERBS ∧ "go to" ∈ ACTION_VERBS ∧
    "write" ∈ ACTION_VERBS ∧ "open" ∈ ACTION_VERBS ∧ "check" ∈ ACTION_VERBS ∧
    validateIsActionable "Open the document." = none ∧
    validateIsActionable "Think about your options." =
      some (FocusError.notActionable "Think about your options.") ∧
    validateIsActionable "You should write an outline." =
      some (FocusError.notActionable "You should write an outline.") := by
  refine ⟨?_, by decide, by decide, by decide, by decide, by decide, by decide, by decide,
          by decide, by decide, by decide⟩
  intro text
  have hbase : validateIsActionable text = none ↔ isActionable text = true := by
    unfold validateIsActionable
    split <;> rename_i h <;> simp [h]
  rw [hbase]
  unfold isActionable
  exact List.any_eq_true

/-! Claim C8: the bounded-scope validator. -/

/-- C8: the Bounded-scope validator fails exactly when the lower-cased
candidate contains a red-flag phrase as a substring (not at word
boundaries); the quoted phrases are in the table; the spec's examples
behave as claimed, including a match inside a larger word. -/
theorem scope_validator_correct :
    (∀ text, validateIsShort text = some (FocusError.tooLargeScope text) ↔
      ∃ p ∈ RED_FLAG_PHRASES, listContains p.toList (lowerList text) = true) ∧
    "complete the" ∈ RED_FLAG_PHRASES ∧ "finish the" ∈ RED_FLAG_PHRASES ∧
    "the entire module" ∈ RED_FLAG_PHRASES ∧ "all of the" ∈ RED_FLAG_PHRASES ∧
    validateIsShort "List three tasks for this week." = none ∧
    validateIsShort "Finish the entire module." =
      some (FocusError.tooLargeScope "Finish the entire module.") ∧
    validateIsShort "Refinish the cabinet" =
      some (FocusError.tooLargeScope "Refinish the cabinet") := by
  refine ⟨?_, by decide, by decide, by decide, by decide, by decide, by decide, by decide⟩
  intro text
  have hbase : validateIsShort text = some (FocusError.tooLargeScope text) ↔
      hasRedFlag text = true := by
    unfold validateIsShort
    split <;> rename_i h <;> simp [h]
  rw [hbase]
  unfold hasRedFlag
  exact List.any_eq_true

/-! Claim C9: the single-sentence validator. -/

/-- The disjunction of the three sentence terminators. -/
def isTerminator (c : Char) : Bool := c = '.' || c = '?' || c = '!'

/-- A trimmed character list is empty exactly when every character is
whitespace. -/
theorem listTrim_eq_nil_iff (l : List Char) :
    listTrim l = [] ↔ ∀ c ∈ l, c.isWhitespace = true := by
  unfold listTrim
  rw [List.reverse_eq_nil_iff, List.dropWhile_eq_nil_iff]
  constructor
  · intro h c hc
    have hsplit : c ∈ l.takeWhile Char.isWhitespace ++ l.dropWhile Char.isWhitespace := by
      rw [List.takeWhile_append_dropWhile Char.isWhitespace l]
      exact hc
    rcases List.mem_append.mp hsplit with hm | hm
    · exact List.mem_takeWhile_imp hm
    · exact h c (List.mem_reverse.mpr hm)
  · intro h c hc
    have h1 : c ∈ l.dropWhile Char.isWhitespace := List.mem_reverse.mp hc
    have h2 : c ∈ l := by
      rw [← List.takeWhile_append_dropWhile Char.isWhitespace l]
      exact List.mem_append.mpr (Or.inr h1)
    exact h c h2

/-- Folding `min` from 0 gives 0. -/
theorem foldl_min_zero (xs : List Nat) : xs.foldl min 0 = 0 := by
  induction xs with
  | nil => rfl
  | cons x ys ih => simp [List.foldl, Nat.zero_min, ih]

/-- Folding `min` commutes with shifting every entry by one. -/
theorem foldl_min_succ (xs : List Nat) (x : Nat) :
    (xs.map (fun i => i + 1)).foldl min (x + 1) = (xs.foldl min x) + 1 := by
  induction xs generalizing x with
  | nil => rfl
  | cons y ys ih => simp [List.foldl, Nat.succ_min_succ, ih]

/-- `minIndex` commutes with shifting every entry by one. -/
theorem minIndex_map_succ (xs : List Nat) :
    minIndex (xs.map (fun i => i + 1)) = (minIndex xs).map (fun i => i + 1) := by
  cases xs with
  | nil => rfl
  | cons x ys => simp [minIndex, foldl_min_succ]

/-- The minimum is 0 when the first surviving index is 0. -/
theorem minIndex_zero_head (o2 o3 : Option Nat) :
    minIndex (([some 0, o2.map (fun i => i + 1), o3.map (fun i => i + 1)]).filterMap id) =
      some 0 := by
  rcases o2 with _ | a <;> rcases o3 with _ | b <;> simp [minIndex, List.foldl]

/-- The minimum is 0 when the second candidate index is 0. -/
theorem minIndex_zero_mid (o1 o3 : Option Nat) :
    minIndex (([o1.map (fun i => i + 1), some 0, o3.map (fun i => i + 1)]).filterMap id) =
      some 0 := by
  rcases o1 with _ | a <;> rcases o3 with _ | b <;> simp [minIndex, List.foldl]

/-- The minimum is 0 when the third candidate index is 0. -/
theorem minIndex_zero_last (o1 o2 : Option Nat) :
    minIndex (([o1.map (fun i => i + 1), o2.map (fun i => i + 1), some 0]).filterMap id) =
      some 0 := by
  rcases o1 with _ | a <;> rcases o2 with _ | b <;> simp [minIndex, List.foldl]

/-- Shifting three optional indices commutes with collecting the hits. -/
theorem filterMap_id_map_succ (o1 o2 o3 : Option Nat) :
    ([o1.map (fun i => i + 1), o2.map (fun i => i + 1),
      o3.map (fun i => i + 1)]).filterMap id =
      (([o1, o2, o3]).filterMap id).map (fun i => i + 1) := by
  rcases o1 with _ | a <;> rcases o2 with _ | b <;> rcases o3 with _ | c <;> simp

/-- The minimum of the three per-terminator `indexOf` results is the index
of the first terminator of any kind. -/
theorem minIndex_three_eq_first (l : List Char) :
    minIndex (([jsIndexOf (fun c => c = '.') l, jsIndexOf (fun c => c = '?') l,
                jsIndexOf (fun c => c = '!') l]).filterMap id) =
      jsIndexOf isTerminator l := by
  induction l with
  | nil => rfl
  | cons c rest ih =>
      by_cases h1 : c = '.'
      · subst h1
        have e1 : jsIndexOf (fun x => x = '.') ('.' :: rest) = some 0 := by
          simp [jsIndexOf]
        have e2 : jsIndexOf (fun x => x = '?') ('.' :: rest) =
            (jsIndexOf (fun x => x = '?') rest).map (fun i => i + 1) := by
          simp [jsIndexOf]
        have e3 : jsIndexOf (fun x => x = '!') ('.' :: rest) =
            (jsIndexOf (fun x => x = '!') rest).map (fun i => i + 1) := by
          simp [jsIndexOf]
        have e4 : jsIndexOf isTerminator ('.' :: rest) = some 0 := by
          simp [jsIndexOf, isTerminator]
        rw [e1, e2, e3, e4]
        exact minIndex_zero_head _ _
      · by_cases h2 : c = '?'
        · subst h2
          have e1 : jsIndexOf (fun x => x = '.') ('?' :: rest) =
              (jsIndexOf (fun x => x = '.') rest).map (fun i => i + 1) := by
            simp [jsIndexOf]
          have e2 : jsIndexOf (fun x => x = '?') ('?' :: rest) = some 0 := by
            simp [jsIndexOf]
          have e3 : jsIndexOf (fun x => x = '!') ('?' :: rest) =
              (jsIndexOf (fun x => x = '!') rest).map (fun i => i + 1) := by
            simp [jsIndexOf]
          have e4 : jsIndexOf isTerminator ('?' :: rest) = some 0 := by
            simp [jsIndexOf, isTerminator]
          rw [e1, e2, e3, e4]
          exact minIndex_zero_mid _ _
        · by_cases h3 : c = '!'
          · subst h3
            have e1 : jsIndexOf (fun x => x = '.') ('!' :: rest) =
                (jsIndexOf (fun x => x = '.') rest).map (fun i => i + 1) := by
              simp [jsIndexOf]
            have e2 : jsIndexOf (fun x => x = '?') ('!' :: rest) =
                (jsIndexOf (fun x => x = '?') rest).map (fun i => i + 1) := by
              simp [jsIndexOf]
            have e3 : jsIndexOf (fun x => x = '!') ('!' :: rest) = some 0 := by
              simp [jsIndexOf]
            have e4 : jsIndexOf isTerminator ('!' :: rest) = some 0 := by
              simp [jsIndexOf, isTerminator]
            rw [e1, e2, e3, e4]
            exact minIndex_zero_last _ _
          · have e1 : jsIndexOf (fun x => x = '.') (c :: rest) =
                (jsIndexOf (fun x => x = '.') rest).map (fun i => i + 1) := by
              simp [jsIndexOf, h1]
            have e2 : jsIndexOf (fun x => x = '?') (c :: rest) =
                (jsIndexOf (fun x => x = '?') rest).map (fun i => i + 1) := by
              simp [jsIndexOf, h2]
            have e3 : jsIndexOf (fun x => x = '!') (c :: rest) =
                (jsIndexOf (fun x => x = '!') rest).map (fun i => i + 1) := by
              simp [jsIndexOf, h3]
            have e4 : jsIndexOf isTerminator (c :: rest) =
                (jsIndexOf isTerminator rest).map (fun i => i + 1) := by
              simp [jsIndexOf, isTerminator, h1, h2, h3]
            rw [e1, e2, e3, e4, filterMap_id_map_succ, minIndex_map_succ, ih]

/-- C9: the validator keys on the index of the first terminator; with no
terminator it passes; with one it fails exactly when a non-whitespace
character remains after it; the spec's three examples behave as claimed. -/
theorem singleSentence_validator_correct :
    (∀ text, firstTerminatorIdx text = jsIndexOf isTerminator text.toList) ∧
    (∀ text, firstTerminatorIdx text = none → validateIsSingleSentence text = none) ∧
    (∀ text i, firstTerminatorIdx text = some i →
      (validateIsSingleSentence text = some (FocusError.notSingleSentence text) ↔
        ∃ c ∈ text.toList.drop (i + 1), c.isWhitespace = false)) ∧
    validateIsSingleSentence "Open a document." = none ∧
    validateIsSingleSentence "Open a document. Then write a title." =
      some (FocusError.notSingleSentence "Open a document. Then write a title.") ∧
    validateIsSingleSentence "Open a document" = none := by
  refine ⟨?_, ?_, ?_, by decide, by decide, by decide⟩
  · intro text
    unfold firstTerminatorIdx
    exact minIndex_three_eq_first text.toList
  · intro text h
    simp [validateIsSingleSentence, h]
  · intro text i h
    simp only [validateIsSingleSentence, h]
    by_cases hcond : listTrim (text.toList.drop (i + 1)) = []
    · rw [if_pos hcond]
      constructor
      · intro hcontra
        exact absurd hcontra (by simp)
      · rintro ⟨c, hc, hw⟩
        have hws := (listTrim_eq_nil_iff _).mp hcond c hc
        rw [hws] at hw
        exact Bool.noConfusion hw
    · rw [if_neg hcond]
      constructor
      · intro _
        by_contra hne
        apply hcond
        apply (listTrim_eq_nil_iff _).mpr
        intro c hc
        by_contra hcw
        exact hne ⟨c, hc, by simpa [Bool.not_eq_true] using hcw⟩
      · intro _
        rfl

/-- Witness for C9: the no-terminator example passes and the two-sentence
example fails, through the theorem's characterizations. -/
theorem singleSentence_validator_witness :
    validateIsSingleSentence "Open a document" = none ∧
    validateIsSingleSentence "Open a document. Then write a title." =
      some (FocusError.notSingleSentence "Open a document. Then write a title.") :=
  ⟨singleSentence_validator_correct.2.1 "Open a document" (by decide),
   (singleSentence_validator_correct.2.2.1 "Open a document. Then write a title." 15
      (by decide)).mpr ⟨'T', by decide, by decide⟩⟩

end Focus
